import Mathlib

/-!
# Verification of the Poisson loss model (`src/poisson.cpp`)

Shallow embedding of `CPoisson` from the GBM repository. Doubles are
modelled as rationals; the transcendental functions `std::exp` and
`std::log` are abstract parameters `expQ logQ : ℚ → ℚ` (every property
proved here holds for arbitrary `expQ`/`logQ`, hence in particular for
the real exponential and logarithm). Caller-owned arrays are total
functions `ℕ → ℚ`; a nullable array pointer is an `Option (ℕ → ℚ)`
(`none` = `NULL`). IEEE results that are non-finite (NaN or ±Inf,
arising from division by a zero sum or from `log` of a non-positive
argument) are modelled by an `Option ℚ` return value, `none` standing
for a non-finite double. The per-node max/min scratch buffers of
`FitBestConstant`, initialised to `-HUGE_VAL`/`+HUGE_VAL`, are modelled
as `WithBot ℚ`/`WithTop ℚ` (`⊥`/`⊤` = the infinite initial value that
is never replaced).
-/

namespace CPoisson

/-- `adF[i] + ((adOffset==NULL) ? 0.0 : adOffset[i])` — the linear
predictor used throughout the module. -/
def eta (adOffset : Option (ℕ → ℚ)) (adF : ℕ → ℚ) (i : ℕ) : ℚ :=
  adF i + (match adOffset with
           | none => 0
           | some o => o i)

/-- `CPoisson::ComputeWorkingResponse`: fills `adZ[i] = adY[i] - exp(dF)`
for `i < nTrain`, where `dF = adF[i] + offset`. The filled output array
is modelled as the list of its `nTrain` entries. `adWeight` and
`afInBag` are parameters of the call but unused by the body. -/
def ComputeWorkingResponse (expQ : ℚ → ℚ) (adY : ℕ → ℚ)
    (adOffset : Option (ℕ → ℚ)) (adF : ℕ → ℚ) (adWeight : ℕ → ℚ)
    (afInBag : ℕ → Bool) (nTrain : ℕ) : List ℚ :=
  (List.range nTrain).map (fun i => adY i - expQ (eta adOffset adF i))

/-- `dSum` accumulated by `CPoisson::InitF`: `Σ adWeight[i]*adY[i]`
(identical in both branches of the `NULL` test). -/
def initFSum (adY adWeight : ℕ → ℚ) (cLength : ℕ) : ℚ :=
  ∑ i in Finset.range cLength, adWeight i * adY i

/-- `dDenom` accumulated by `CPoisson::InitF`: `Σ adWeight[i]` when
`adOffset == NULL`, `Σ adWeight[i]*exp(adOffset[i])` otherwise. -/
def initFDenom (expQ : ℚ → ℚ) (adOffset : Option (ℕ → ℚ))
    (adWeight : ℕ → ℚ) (cLength : ℕ) : ℚ :=
  match adOffset with
  | none => ∑ i in Finset.range cLength, adWeight i
  | some o => ∑ i in Finset.range cLength, adWeight i * expQ (o i)

/-- `CPoisson::InitF`: `dInitF = std::log(dSum/dDenom)`. The result is
`none` exactly when the double result is non-finite: a zero `dDenom`
makes the quotient ±Inf or NaN, and a non-positive quotient makes the
logarithm -Inf or NaN. -/
def InitF (expQ logQ : ℚ → ℚ) (adY : ℕ → ℚ) (adOffset : Option (ℕ → ℚ))
    (adWeight : ℕ → ℚ) (cLength : ℕ) : Option ℚ :=
  let dSum := initFSum adY adWeight cLength
  let dDenom := initFDenom expQ adOffset adWeight cLength
  if dDenom = 0 then none
  else if dSum / dDenom ≤ 0 then none
  else some (logQ (dSum / dDenom))

/-- The index range of `CPoisson::Deviance`'s loop:
`for(i=cIdxOff; i<cLength+cIdxOff; i++)`. -/
def devRange (cLength cIdxOff : ℕ) : Finset ℕ :=
  Finset.Ico cIdxOff (cLength + cIdxOff)

/-- `dL` accumulated by `CPoisson::Deviance`:
`Σ adWeight[i]*(adY[i]*adF[i] - exp(adF[i]))` when `adOffset == NULL`,
with `adOffset[i]+adF[i]` in place of `adF[i]` otherwise. -/
def devianceL (expQ : ℚ → ℚ) (adY : ℕ → ℚ) (adOffset : Option (ℕ → ℚ))
    (adWeight adF : ℕ → ℚ) (cLength cIdxOff : ℕ) : ℚ :=
  match adOffset with
  | none =>
    ∑ i in devRange cLength cIdxOff,
      adWeight i * (adY i * adF i - expQ (adF i))
  | some o =>
    ∑ i in devRange cLength cIdxOff,
      adWeight i * (adY i * (o i + adF i) - expQ (o i + adF i))

/-- `dW` accumulated by `CPoisson::Deviance`: `Σ adWeight[i]` over the
loop range (identical in both branches). -/
def devianceW (adWeight : ℕ → ℚ) (cLength cIdxOff : ℕ) : ℚ :=
  ∑ i in devRange cLength cIdxOff, adWeight i

/-- `CPoisson::Deviance`: returns `-2*dL/dW`; `none` models the
non-finite double produced when `dW == 0`. -/
def Deviance (expQ : ℚ → ℚ) (adY : ℕ → ℚ) (adOffset : Option (ℕ → ℚ))
    (adWeight adF : ℕ → ℚ) (cLength cIdxOff : ℕ) : Option ℚ :=
  let dL := devianceL expQ adY adOffset adWeight adF cLength cIdxOff
  let dW := devianceW adWeight cLength cIdxOff
  if dW = 0 then none else some (-2 * dL / dW)

/-- The in-bag observations of the training range that the tree assigns
to terminal node `iNode`: the indices accumulated into
`vecdNum[iNode]`/`vecdDen[iNode]` by `CPoisson::FitBestConstant`. -/
def inBagNode (afInBag : ℕ → Bool) (aiNodeAssign : ℕ → ℕ)
    (nTrain iNode : ℕ) : Finset ℕ :=
  (Finset.range nTrain).filter
    (fun i => afInBag i = true ∧ aiNodeAssign i = iNode)

/-- `vecdNum[iNode]` after the accumulation loop of
`CPoisson::FitBestConstant`: `Σ adW[iObs]*adY[iObs]` over in-bag
observations assigned to the node (same in both offset branches). -/
def vecdNum (adY adW : ℕ → ℚ) (afInBag : ℕ → Bool)
    (aiNodeAssign : ℕ → ℕ) (nTrain iNode : ℕ) : ℚ :=
  ∑ i in inBagNode afInBag aiNodeAssign nTrain iNode, adW i * adY i

/-- `vecdDen[iNode]` after the accumulation loop of
`CPoisson::FitBestConstant`: `Σ adW[iObs]*exp(adF[iObs])` over in-bag
observations assigned to the node when `adOffset == NULL`, with
`exp(adOffset[iObs]+adF[iObs])` otherwise. -/
def vecdDen (expQ : ℚ → ℚ) (adOffset : Option (ℕ → ℚ)) (adW adF : ℕ → ℚ)
    (afInBag : ℕ → Bool) (aiNodeAssign : ℕ → ℕ) (nTrain iNode : ℕ) : ℚ :=
  ∑ i in inBagNode afInBag aiNodeAssign nTrain iNode,
    adW i * (match adOffset with
             | none => expQ (adF i)
             | some o => expQ (o i + adF i))

/-- All observations of the training range (in-bag or not) that the tree
assigns to terminal node `iNode` — the indices whose `adF` values feed
the `vecdMax`/`vecdMin` tracking. -/
def assignedNode (aiNodeAssign : ℕ → ℕ) (nTrain iNode : ℕ) : Finset ℕ :=
  (Finset.range nTrain).filter (fun i => aiNodeAssign i = iNode)

/-- `vecdMax[iNode]` after the accumulation loop: starting from
`-HUGE_VAL` (here `⊥`), repeatedly `fmax2`-ed with `adF[iObs]` for every
observation assigned to the node — i.e. the maximum of `adF` over the
assigned observations, `⊥` when there are none. The tracking is only
performed in the `adOffset == NULL` branch; otherwise the buffer keeps
its initial `-HUGE_VAL`. -/
def vecdMax (adOffset : Option (ℕ → ℚ)) (adF : ℕ → ℚ)
    (aiNodeAssign : ℕ → ℕ) (nTrain iNode : ℕ) : WithBot ℚ :=
  match adOffset with
  | none => ((assignedNode aiNodeAssign nTrain iNode).image adF).max
  | some _ => ⊥

/-- `vecdMin[iNode]` after the accumulation loop: starting from
`HUGE_VAL` (here `⊤`), repeatedly `fmin2`-ed with `adF[iObs]`; kept at
`HUGE_VAL` in the `adOffset != NULL` branch. -/
def vecdMin (adOffset : Option (ℕ → ℚ)) (adF : ℕ → ℚ)
    (aiNodeAssign : ℕ → ℕ) (nTrain iNode : ℕ) : WithTop ℚ :=
  match adOffset with
  | none => ((assignedNode aiNodeAssign nTrain iNode).image adF).min
  | some _ => ⊤

/-- The three-way branch of `CPoisson::FitBestConstant` that writes
`dPrediction` before clamping: `-19.0` when `vecdNum[iNode] == 0.0`,
`0.0` when `vecdDen[iNode] == 0.0`, else `log(num/den)`. -/
def rawPrediction (logQ : ℚ → ℚ) (num den : ℚ) : ℚ :=
  if num = 0 then -19
  else if den = 0 then 0
  else logQ (num / den)

/-- `dPrediction = fmin2(dPrediction, 19 - vecdMax[iNode])`. With
`vecdMax` still at `-HUGE_VAL`, the bound `19 - (-HUGE_VAL) = +Inf`
makes the `fmin2` a no-op. -/
def clampUpper (p : ℚ) (m : WithBot ℚ) : ℚ :=
  match m with
  | ⊥ => p
  | (v : ℚ) => min p (19 - v)

/-- `dPrediction = fmax2(dPrediction, -19 - vecdMin[iNode])`. With
`vecdMin` still at `HUGE_VAL`, the bound `-19 - HUGE_VAL = -Inf` makes
the `fmax2` a no-op. -/
def clampLower (p : ℚ) (m : WithTop ℚ) : ℚ :=
  match m with
  | ⊤ => p
  | (v : ℚ) => max p (-19 - v)

/-- `CPoisson::FitBestConstant`: the terminal-node vector
`vecpTermNodes` is modelled as `ℕ → Option ℚ`, a handle per index
(`none` = `NULL` pointer, `some p` = a node whose `dPrediction` field
currently holds `p`). The result maps each node index to the state of
that field after the call: a `NULL` handle is untouched (still `none`),
a node at index `≥ cTermNodes` is outside the written loop and keeps its
old prediction, and every other node receives the branch value clamped
from above then from below. `cMinObsInNode` and `adFadj` are parameters
of the call but unused by the body. -/
def FitBestConstant (expQ logQ : ℚ → ℚ) (adY : ℕ → ℚ)
    (adOffset : Option (ℕ → ℚ)) (adW adF : ℕ → ℚ)
    (aiNodeAssign : ℕ → ℕ) (nTrain : ℕ) (vecpTermNodes : ℕ → Option ℚ)
    (cTermNodes cMinObsInNode : ℕ) (afInBag : ℕ → Bool)
    (adFadj : ℕ → ℚ) : ℕ → Option ℚ :=
  fun iNode =>
    match vecpTermNodes iNode with
    | none => none
    | some oldPrediction =>
      if iNode < cTermNodes then
        some (clampLower
                (clampUpper
                  (rawPrediction logQ
                    (vecdNum adY adW afInBag aiNodeAssign nTrain iNode)
                    (vecdDen expQ adOffset adW adF afInBag aiNodeAssign
                      nTrain iNode))
                  (vecdMax adOffset adF aiNodeAssign nTrain iNode))
                (vecdMin adOffset adF aiNodeAssign nTrain iNode))
      else some oldPrediction

/-- The out-of-bag observations of the training range — the indices the
loop of `CPoisson::BagImprovement` accumulates over (`!afInBag[i]`). -/
def outOfBag (afInBag : ℕ → Bool) (nTrain : ℕ) : Finset ℕ :=
  (Finset.range nTrain).filter (fun i => afInBag i = false)

/-- `dReturnValue` accumulated by `CPoisson::BagImprovement`:
`Σ adWeight[i]*(adY[i]*dStepSize*adFadj[i] - exp(dF+dStepSize*adFadj[i])
+ exp(dF))` over out-of-bag observations, with `dF` the linear
predictor. -/
def bagImprovementSum (expQ : ℚ → ℚ) (adY : ℕ → ℚ)
    (adOffset : Option (ℕ → ℚ)) (adWeight adF adFadj : ℕ → ℚ)
    (afInBag : ℕ → Bool) (dStepSize : ℚ) (nTrain : ℕ) : ℚ :=
  ∑ i in outOfBag afInBag nTrain,
    adWeight i * (adY i * dStepSize * adFadj i -
                  expQ (eta adOffset adF i + dStepSize * adFadj i) +
                  expQ (eta adOffset adF i))

/-- `dW` accumulated by `CPoisson::BagImprovement`: the summed
out-of-bag weight. -/
def bagImprovementW (adWeight : ℕ → ℚ) (afInBag : ℕ → Bool)
    (nTrain : ℕ) : ℚ :=
  ∑ i in outOfBag afInBag nTrain, adWeight i

/-- `CPoisson::BagImprovement`: returns `dReturnValue/dW`; `none` models
the non-finite double produced when `dW == 0` (e.g. when every
observation is in-bag, so that both accumulators stay `0.0` and the
return value is `0.0/0.0 = NaN`). -/
def BagImprovement (expQ : ℚ → ℚ) (adY : ℕ → ℚ)
    (adOffset : Option (ℕ → ℚ)) (adWeight adF adFadj : ℕ → ℚ)
    (afInBag : ℕ → Bool) (dStepSize : ℚ) (nTrain : ℕ) : Option ℚ :=
  let dReturnValue :=
    bagImprovementSum expQ adY adOffset adWeight adF adFadj afInBag
      dStepSize nTrain
  let dW := bagImprovementW adWeight afInBag nTrain
  if dW = 0 then none else some (dReturnValue / dW)

/-! ## Claim C4 — working response formula and unused arguments -/

/-- C4: for every `i < nTrain`, the output entry `z[i]` of
`ComputeWorkingResponse` equals `adY[i] - exp(adF[i] + adOffset[i])`
(with the offset term `0` when the offset array is `NULL`), and the
output is independent of the `adWeight` and `afInBag` arguments. -/
theorem computeWorkingResponse_spec (expQ : ℚ → ℚ) (adY : ℕ → ℚ)
    (adOffset : Option (ℕ → ℚ)) (adF adWeight adWeightB : ℕ → ℚ)
    (afInBag afInBagB : ℕ → Bool) (nTrain : ℕ) (i : ℕ)
    (hi : i < nTrain) :
    (ComputeWorkingResponse expQ adY adOffset adF adWeight afInBag
        nTrain).get? i
      = some (adY i - expQ (adF i + (match adOffset with
                                     | none => 0
                                     | some o => o i)))
    ∧ ComputeWorkingResponse expQ adY adOffset adF adWeight afInBag nTrain
      = ComputeWorkingResponse expQ adY adOffset adF adWeightB afInBagB
          nTrain := by
  constructor
  · rw [ComputeWorkingResponse, List.get?_map, List.get?_range hi]
    rfl
  · rfl

/-- Witness for `computeWorkingResponse_spec` at
`y = 2, f = 0, offset = NULL, exp = const 1, nTrain = 3, i = 0`. -/
theorem computeWorkingResponse_spec_witness :
    (ComputeWorkingResponse (fun _ => 1) (fun _ => 2) none (fun _ => 0)
        (fun _ => 5) (fun _ => true) 3).get? 0
      = some ((fun _ => (2 : ℚ)) 0 -
          (fun _ => (1 : ℚ)) ((fun _ => (0 : ℚ)) 0 + 0))
    ∧ ComputeWorkingResponse (fun _ => 1) (fun _ => 2) none (fun _ => 0)
        (fun _ => 5) (fun _ => true) 3
      = ComputeWorkingResponse (fun _ => 1) (fun _ => 2) none (fun _ => 0)
          (fun _ => 7) (fun _ => false) 3 :=
  computeWorkingResponse_spec (fun _ => 1) (fun _ => 2) none (fun _ => 0)
    (fun _ => 5) (fun _ => 7) (fun _ => true) (fun _ => false) 3 0
    (by decide)

/-! ## Claim C5 — the initial constant model -/

/-- C5: for `cLength ≥ 1`, whenever the claimed value is a finite double
(nonzero denominator, positive ratio), `InitF` returns
`log(Σ weight[i]*y[i] / D)` where `D = Σ weight[i]*exp(offset[i])` with
offset present and `D = Σ weight[i]` with offset absent. -/
theorem initF_spec (expQ logQ : ℚ → ℚ) (adY : ℕ → ℚ)
    (adOffset : Option (ℕ → ℚ)) (adWeight : ℕ → ℚ) (cLength : ℕ)
    (hn : 1 ≤ cLength)
    (hD : initFDenom expQ adOffset adWeight cLength ≠ 0)
    (hPos : 0 < initFSum adY adWeight cLength /
        initFDenom expQ adOffset adWeight cLength) :
    InitF expQ logQ adY adOffset adWeight cLength
      = some (logQ ((∑ i in Finset.range cLength, adWeight i * adY i) /
          adOffset.elim (∑ i in Finset.range cLength, adWeight i)
            (fun o => ∑ i in Finset.range cLength,
              adWeight i * expQ (o i)))) := by
  have hd : initFDenom expQ adOffset adWeight cLength
      = adOffset.elim (∑ i in Finset.range cLength, adWeight i)
          (fun o => ∑ i in Finset.range cLength,
            adWeight i * expQ (o i)) := by
    cases adOffset <;> rfl
  rw [InitF]
  simp only [if_neg hD, if_neg (not_le.mpr hPos)]
  rw [initFSum, hd]

/-- Witness for `initF_spec` at `n = 2, y = 3, weight = 1, offset
absent`. -/
theorem initF_spec_witness :
    InitF (fun _ => 1) (fun x => x) (fun _ => 3) none (fun _ => 1) 2
      = some ((fun x => (x : ℚ)) ((∑ i in Finset.range 2,
          (fun _ => (1 : ℚ)) i * (fun _ => (3 : ℚ)) i) /
          (∑ i in Finset.range 2, (fun _ => (1 : ℚ)) i))) :=
  initF_spec (fun _ => 1) (fun x => x) (fun _ => 3) none (fun _ => 1) 2
    (by norm_num)
    (by norm_num [initFDenom])
    (by norm_num [initFSum, initFDenom, Finset.sum_range_succ])

/-! ## Claim C6 — the deviance formula -/

/-- C6: whenever the summed weight over the range
`[cIdxOff, cIdxOff + cLength)` is nonzero (so that the claimed quotient
is a finite double), `Deviance` returns
`-2 * Σ weight[i]*(y[i]*η[i] - exp(η[i])) / Σ weight[i]` over that
range, with `η[i] = f[i] + offset[i]` (offset `0` when absent). -/
theorem deviance_spec (expQ : ℚ → ℚ) (adY : ℕ → ℚ)
    (adOffset : Option (ℕ → ℚ)) (adWeight adF : ℕ → ℚ)
    (cLength cIdxOff : ℕ)
    (hW : ∑ i in Finset.Ico cIdxOff (cIdxOff + cLength), adWeight i ≠ 0) :
    Deviance expQ adY adOffset adWeight adF cLength cIdxOff
      = some (-2 * (∑ i in Finset.Ico cIdxOff (cIdxOff + cLength),
            adWeight i * (adY i * eta adOffset adF i -
              expQ (eta adOffset adF i))) /
          ∑ i in Finset.Ico cIdxOff (cIdxOff + cLength), adWeight i) := by
  have hrange : devRange cLength cIdxOff
      = Finset.Ico cIdxOff (cIdxOff + cLength) := by
    rw [devRange, Nat.add_comm]
  have hW0 : devianceW adWeight cLength cIdxOff ≠ 0 := by
    rw [devianceW, hrange]; exact hW
  have hL : devianceL expQ adY adOffset adWeight adF cLength cIdxOff
      = ∑ i in Finset.Ico cIdxOff (cIdxOff + cLength),
          adWeight i * (adY i * eta adOffset adF i -
            expQ (eta adOffset adF i)) := by
    cases adOffset with
    | none =>
      rw [devianceL, hrange]
      refine Finset.sum_congr rfl (fun i _ => ?_)
      simp [eta]
    | some o =>
      rw [devianceL, hrange]
      refine Finset.sum_congr rfl (fun i _ => ?_)
      simp only [eta]
      rw [add_comm (adF i) (o i)]
  rw [Deviance]
  simp only [if_neg hW0]
  rw [hL, devianceW, hrange]

/-- Witness for `deviance_spec` at `n = 1, cIdxOff = 0, y = 1,
weight = 1, f = 0, offset absent`. -/
theorem deviance_spec_witness :
    Deviance (fun _ => 1) (fun _ => 1) none (fun _ => 1) (fun _ => 0) 1 0
      = some (-2 * (∑ i in Finset.Ico 0 (0 + 1),
            (fun _ => (1 : ℚ)) i * ((fun _ => (1 : ℚ)) i *
              eta none (fun _ => 0) i -
              (fun _ => (1 : ℚ)) (eta none (fun _ => 0) i))) /
          ∑ i in Finset.Ico 0 (0 + 1), (fun _ => (1 : ℚ)) i) :=
  deviance_spec (fun _ => 1) (fun _ => 1) none (fun _ => 1) (fun _ => 0)
    1 0 (by norm_num)

/-! ## Claim C7 — deviance shift invariance -/

/-- C7: with offset present, replacing `f[i]` by `f[i] + s` and
`offset[i]` by `offset[i] - s` (or `f[i] - s` and `offset[i] + s`)
leaves the deviance unchanged: the two arrays enter only as their
sum. -/
theorem deviance_shift_invariance (expQ : ℚ → ℚ) (adY o adWeight adF : ℕ → ℚ)
    (cLength cIdxOff : ℕ) (s : ℚ) :
    Deviance expQ adY (some fun i => o i - s) adWeight
        (fun i => adF i + s) cLength cIdxOff
      = Deviance expQ adY (some o) adWeight adF cLength cIdxOff
    ∧ Deviance expQ adY (some fun i => o i + s) adWeight
        (fun i => adF i - s) cLength cIdxOff
      = Deviance expQ adY (some o) adWeight adF cLength cIdxOff := by
  have key : ∀ t : ℚ, devianceL expQ adY (some fun i => o i - t) adWeight
      (fun i => adF i + t) cLength cIdxOff
      = devianceL expQ adY (some o) adWeight adF cLength cIdxOff := by
    intro t
    rw [devianceL, devianceL]
    refine Finset.sum_congr rfl (fun i _ => ?_)
    have harg : o i - t + (adF i + t) = o i + adF i := by ring
    rw [harg]
  constructor
  · rw [Deviance, Deviance, key s]
  · have key2 := key (-s)
    have e1 : (fun i => o i - -s) = (fun i => o i + s) := by
      funext i; ring
    have e2 : (fun i => adF i + -s) = (fun i => adF i - s) := by
      funext i; ring
    rw [e1, e2] at key2
    rw [Deviance, Deviance, key2]

/-! ## Claim C3 — BagImprovement at step size zero -/

/-- C3 counterexample: with every observation in-bag (`afInBag ≡ true`,
`nTrain = 1`) and `dStepSize = 0`, `BagImprovement` does not return
`0.0`: the out-of-bag weight sum `dW` is `0.0`, so the return value
`0.0/0.0` is NaN (modelled `none`), not the finite double `0.0`. -/
theorem bagImprovement_stepZero_counterexample :
    BagImprovement (fun _ => 1) (fun _ => 1) none (fun _ => 1)
        (fun _ => 0) (fun _ => 0) (fun _ => true) 0 1 = none
    ∧ BagImprovement (fun _ => 1) (fun _ => 1) none (fun _ => 1)
        (fun _ => 0) (fun _ => 0) (fun _ => true) 0 1
      ≠ some 0 := by
  constructor
  · norm_num [BagImprovement, bagImprovementW, outOfBag]
  · norm_num [BagImprovement, bagImprovementW, outOfBag]
    exact Option.noConfusion

/-- C3 amended: with `dStepSize = 0`, every accumulated term vanishes
identically, so `BagImprovement` returns exactly `0.0` whenever the
out-of-bag weight sum `dW` is nonzero (when `dW = 0` the result is the
non-finite `0.0/0.0`). -/
theorem bagImprovement_stepZero (expQ : ℚ → ℚ) (adY : ℕ → ℚ)
    (adOffset : Option (ℕ → ℚ)) (adWeight adF adFadj : ℕ → ℚ)
    (afInBag : ℕ → Bool) (nTrain : ℕ)
    (hW : bagImprovementW adWeight afInBag nTrain ≠ 0) :
    BagImprovement expQ adY adOffset adWeight adF adFadj afInBag 0
        nTrain = some 0 := by
  have hsum : bagImprovementSum expQ adY adOffset adWeight adF adFadj
      afInBag 0 nTrain = 0 := by
    rw [bagImprovementSum]
    refine Finset.sum_eq_zero (fun i _ => ?_)
    simp
  rw [BagImprovement]
  simp only [if_neg hW, hsum, zero_div]

/-- Witness for `bagImprovement_stepZero` with one out-of-bag
observation of weight `1`. -/
theorem bagImprovement_stepZero_witness :
    BagImprovement (fun _ => 1) (fun _ => 1) none (fun _ => 1)
        (fun _ => 0) (fun _ => 0) (fun _ => false) 0 1 = some 0 :=
  bagImprovement_stepZero (fun _ => 1) (fun _ => 1) none (fun _ => 1)
    (fun _ => 0) (fun _ => 0) (fun _ => false) 1
    (by norm_num [bagImprovementW, outOfBag])

/-! ## Claim C9 — anomalies surface as non-finite values, not errors -/

/-- C9: `InitF`, `Deviance` and `BagImprovement` are total and signal
nothing; the degenerate inputs named by the spec are exactly the ones
whose result is a non-finite double (modelled `none`): a zero or
negative argument of the logarithm in `InitF` (including the zero
denominator making the quotient itself non-finite), a zero dividing
weight sum in `Deviance`, and a zero out-of-bag weight sum in
`BagImprovement` — in particular whenever every observation is
in-bag. -/
theorem nonfinite_propagation (expQ logQ : ℚ → ℚ) (adY : ℕ → ℚ)
    (adOffset : Option (ℕ → ℚ)) (adWeight adF adFadj : ℕ → ℚ)
    (afInBag : ℕ → Bool) (dStepSize : ℚ)
    (cLength cIdxOff nTrain : ℕ) :
    (initFDenom expQ adOffset adWeight cLength = 0 ∨
        initFSum adY adWeight cLength /
          initFDenom expQ adOffset adWeight cLength ≤ 0 →
      InitF expQ logQ adY adOffset adWeight cLength = none)
    ∧ (devianceW adWeight cLength cIdxOff = 0 →
      Deviance expQ adY adOffset adWeight adF cLength cIdxOff = none)
    ∧ (bagImprovementW adWeight afInBag nTrain = 0 →
      BagImprovement expQ adY adOffset adWeight adF adFadj afInBag
        dStepSize nTrain = none)
    ∧ ((∀ i, afInBag i = true) →
      BagImprovement expQ adY adOffset adWeight adF adFadj afInBag
        dStepSize nTrain = none) := by
  have hBag : ∀ h : bagImprovementW adWeight afInBag nTrain = 0,
      BagImprovement expQ adY adOffset adWeight adF adFadj afInBag
        dStepSize nTrain = none := by
    intro h
    rw [BagImprovement]
    simp only [if_pos h]
  refine ⟨?_, ?_, hBag, ?_⟩
  · intro h
    rw [InitF]
    rcases h with h | h
    · simp only [if_pos h]
    · rcases eq_or_ne (initFDenom expQ adOffset adWeight cLength) 0 with
        hD | hD
      · simp only [if_pos hD]
      · simp only [if_neg hD, if_pos h]
  · intro h
    rw [Deviance]
    simp only [if_pos h]
  · intro hAll
    refine hBag ?_
    rw [bagImprovementW]
    refine Finset.sum_eq_zero (fun i hi => ?_)
    exfalso
    rw [outOfBag, Finset.mem_filter] at hi
    rw [hAll i] at hi
    simp at hi

/-- Witness for `nonfinite_propagation`: all four degenerate situations
at concrete inputs (all-zero weights for `InitF` and `Deviance`, an
all-in-bag vector for `BagImprovement`). -/
theorem nonfinite_propagation_witness :
    InitF (fun _ => 1) (fun _ => 1) (fun _ => 1) none (fun _ => 0) 1
      = none
    ∧ Deviance (fun _ => 1) (fun _ => 1) none (fun _ => 0) (fun _ => 0)
        1 0 = none
    ∧ BagImprovement (fun _ => 1) (fun _ => 1) none (fun _ => 0)
        (fun _ => 0) (fun _ => 0) (fun _ => false) 1 1 = none
    ∧ BagImprovement (fun _ => 1) (fun _ => 1) none (fun _ => 1)
        (fun _ => 0) (fun _ => 0) (fun _ => true) 1 1 = none :=
  ⟨(nonfinite_propagation (fun _ => 1) (fun _ => 1) (fun _ => 1) none
      (fun _ => 0) (fun _ => 0) (fun _ => 0) (fun _ => false) 1 1 0
      1).1
    (Or.inl (by norm_num [initFDenom])),
   (nonfinite_propagation (fun _ => 1) (fun _ => 1) (fun _ => 1) none
      (fun _ => 0) (fun _ => 0) (fun _ => 0) (fun _ => false) 1 1 0
      1).2.1
    (by norm_num [devianceW, devRange]),
   (nonfinite_propagation (fun _ => 1) (fun _ => 1) (fun _ => 1) none
      (fun _ => 0) (fun _ => 0) (fun _ => 0) (fun _ => false) 1 1 0
      1).2.2.1
    (by norm_num [bagImprovementW, outOfBag]),
   (nonfinite_propagation (fun _ => 1) (fun _ => 1) (fun _ => 1) none
      (fun _ => 1) (fun _ => 0) (fun _ => 0) (fun _ => true) 1 1 0
      1).2.2.2
    (fun _ => rfl)⟩

/-! ## Helper lemmas about the clamp and the node loop -/

theorem clampUpper_coe (p v : ℚ) : clampUpper p (v : WithBot ℚ) = min p (19 - v) :=
  rfl

theorem clampUpper_bot (p : ℚ) : clampUpper p ⊥ = p :=
  rfl

theorem clampLower_coe (p v : ℚ) : clampLower p (v : WithTop ℚ) = max p (-19 - v) :=
  rfl

theorem clampLower_top (p : ℚ) : clampLower p ⊤ = p :=
  rfl

/-- The body of the final node loop of `CPoisson::FitBestConstant` for a
non-null node inside the loop range: branch value, then upper clamp,
then lower clamp. -/
theorem fitBestConstant_eval (expQ logQ : ℚ → ℚ) (adY : ℕ → ℚ)
    (adOffset : Option (ℕ → ℚ)) (adW adF : ℕ → ℚ)
    (aiNodeAssign : ℕ → ℕ) (nTrain : ℕ) (vecpTermNodes : ℕ → Option ℚ)
    (cTermNodes cMinObsInNode : ℕ) (afInBag : ℕ → Bool) (adFadj : ℕ → ℚ)
    (iNode : ℕ) (q : ℚ) (hNode : vecpTermNodes iNode = some q)
    (hLt : iNode < cTermNodes) :
    FitBestConstant expQ logQ adY adOffset adW adF aiNodeAssign nTrain
        vecpTermNodes cTermNodes cMinObsInNode afInBag adFadj iNode
      = some (clampLower
          (clampUpper
            (rawPrediction logQ
              (vecdNum adY adW afInBag aiNodeAssign nTrain iNode)
              (vecdDen expQ adOffset adW adF afInBag aiNodeAssign nTrain
                iNode))
            (vecdMax adOffset adF aiNodeAssign nTrain iNode))
          (vecdMin adOffset adF aiNodeAssign nTrain iNode)) := by
  rw [FitBestConstant, hNode]
  simp only [if_pos hLt]

/-! ## Claim C1 — degenerate-ratio branches of FitBestConstant -/

/-- C1 counterexample: a single in-bag observation with `y = 0`,
`weight = 1`, `f = -1`, no offset, assigned to the sole non-null node.
The accumulated numerator is `0`, yet the node's final prediction is
`-18`, not `-19.0`: the branch writes `-19.0` but the subsequent lower
clamp `fmax2(-19, -19 - vecdMin) = fmax2(-19, -18)` raises it. -/
theorem fitBestConstant_degenerate_counterexample :
    vecdNum (fun _ => 0) (fun _ => 1) (fun _ => true) (fun _ => 0) 1 0
      = 0
    ∧ FitBestConstant (fun _ => 1) (fun _ => 0) (fun _ => 0) none
        (fun _ => 1) (fun _ => -1) (fun _ => 0) 1 (fun _ => some 0) 1 0
        (fun _ => true) (fun _ => 0) 0 = some (-18)
    ∧ some (-18 : ℚ) ≠ some (-19 : ℚ) := by
  have hnum : vecdNum (fun _ => 0) (fun _ => 1) (fun _ => true)
      (fun _ => 0) 1 0 = 0 := by
    norm_num [vecdNum, inBagNode]
  have hM : vecdMax none (fun _ => -1) (fun _ => 0) 1 0
      = ((-1 : ℚ) : WithBot ℚ) := by
    simp [vecdMax, assignedNode]
  have hm : vecdMin none (fun _ => -1) (fun _ => 0) 1 0
      = ((-1 : ℚ) : WithTop ℚ) := by
    simp [vecdMin, assignedNode]
  refine ⟨hnum, ?_, ?_⟩
  · rw [fitBestConstant_eval _ _ _ _ _ _ _ _ _ _ _ _ _ _ _ rfl
      (by norm_num), hM, hm, clampUpper_coe, clampLower_coe,
      rawPrediction, if_pos hnum]
    norm_num
  · norm_num

/-- C1 amended: for every non-null terminal node inside the loop range,
a zero accumulated numerator makes the branch write `-19.0` and a
nonzero numerator with zero accumulated denominator makes it write
`0.0`; the final prediction is that value after the upper and lower
clamps (so it is `-19.0` resp. `0.0` exactly whenever the clamp is a
no-op there, e.g. whenever the offset is present). -/
theorem fitBestConstant_degenerate (expQ logQ : ℚ → ℚ) (adY : ℕ → ℚ)
    (adOffset : Option (ℕ → ℚ)) (adW adF : ℕ → ℚ)
    (aiNodeAssign : ℕ → ℕ) (nTrain : ℕ) (vecpTermNodes : ℕ → Option ℚ)
    (cTermNodes cMinObsInNode : ℕ) (afInBag : ℕ → Bool) (adFadj : ℕ → ℚ)
    (iNode : ℕ) (q : ℚ) (hNode : vecpTermNodes iNode = some q)
    (hLt : iNode < cTermNodes) :
    (vecdNum adY adW afInBag aiNodeAssign nTrain iNode = 0 →
      FitBestConstant expQ logQ adY adOffset adW adF aiNodeAssign nTrain
          vecpTermNodes cTermNodes cMinObsInNode afInBag adFadj iNode
        = some (clampLower
            (clampUpper (-19) (vecdMax adOffset adF aiNodeAssign nTrain
              iNode))
            (vecdMin adOffset adF aiNodeAssign nTrain iNode)))
    ∧ (vecdNum adY adW afInBag aiNodeAssign nTrain iNode ≠ 0 →
       vecdDen expQ adOffset adW adF afInBag aiNodeAssign nTrain iNode
         = 0 →
      FitBestConstant expQ logQ adY adOffset adW adF aiNodeAssign nTrain
          vecpTermNodes cTermNodes cMinObsInNode afInBag adFadj iNode
        = some (clampLower
            (clampUpper 0 (vecdMax adOffset adF aiNodeAssign nTrain
              iNode))
            (vecdMin adOffset adF aiNodeAssign nTrain iNode))) := by
  constructor
  · intro hNum
    rw [fitBestConstant_eval expQ logQ adY adOffset adW adF aiNodeAssign
      nTrain vecpTermNodes cTermNodes cMinObsInNode afInBag adFadj iNode
      q hNode hLt, rawPrediction, if_pos hNum]
  · intro hNum hDen
    rw [fitBestConstant_eval expQ logQ adY adOffset adW adF aiNodeAssign
      nTrain vecpTermNodes cTermNodes cMinObsInNode afInBag adFadj iNode
      q hNode hLt, rawPrediction, if_neg hNum, if_pos hDen]

/-- Witness for `fitBestConstant_degenerate`: no observations at all
(`nTrain = 0`), one non-null node; the numerator is the empty sum `0`
and the clamp bounds are still `±HUGE_VAL`, so the prediction is the
clamped `-19`. -/
theorem fitBestConstant_degenerate_witness :
    FitBestConstant (fun _ => 1) (fun _ => 0) (fun _ => 0) none
        (fun _ => 1) (fun _ => 0) (fun _ => 0) 0 (fun _ => some 0) 1 0
        (fun _ => true) (fun _ => 0) 0
      = some (clampLower
          (clampUpper (-19) (vecdMax none (fun _ => 0) (fun _ => 0) 0 0))
          (vecdMin none (fun _ => 0) (fun _ => 0) 0 0)) :=
  (fitBestConstant_degenerate (fun _ => 1) (fun _ => 0) (fun _ => 0)
      none (fun _ => 1) (fun _ => 0) (fun _ => 0) 0 (fun _ => some 0) 1
      0 (fun _ => true) (fun _ => 0) 0 0 rfl (by norm_num)).1
    (by norm_num [vecdNum, inBagNode])

/-! ## Claim C2 — the clamp postcondition with offset absent -/

/-- C2 counterexample: two in-bag observations in one node with
`f = [0, 39]`, no offset, unit weights and responses. The node's final
prediction is `-19` (the lower clamp wins over the upper clamp), and
`nodeMax + prediction = 39 - 19 = 20 > 19`: the claimed conjunction
fails because the spread `nodeMax - nodeMin = 39` exceeds `38`. -/
theorem fitBestConstant_clamp_counterexample :
    FitBestConstant (fun _ => 1) (fun _ => 0) (fun _ => 1) none
        (fun _ => 1) (fun i => if i = 0 then 0 else 39) (fun _ => 0) 2
        (fun _ => some 0) 1 0 (fun _ => true) (fun _ => 0) 0
      = some (-19)
    ∧ vecdMax none (fun i => if i = 0 then 0 else 39) (fun _ => 0) 2 0
      = ((39 : ℚ) : WithBot ℚ)
    ∧ vecdMin none (fun i => if i = 0 then 0 else 39) (fun _ => 0) 2 0
      = ((0 : ℚ) : WithTop ℚ)
    ∧ (0 : ℕ) ∈ assignedNode (fun _ => 0) 2 0
    ∧ ¬((39 : ℚ) + -19 ≤ 19) := by
  refine ⟨?_, ?_, ?_, ?_, ?_⟩
  · rw [FitBestConstant]
    norm_num [rawPrediction, vecdNum, vecdDen, vecdMax, vecdMin,
      inBagNode, assignedNode, clampUpper, clampLower,
      Finset.range_succ, Finset.filter_insert, Finset.sum_insert,
      Finset.image_insert]
  · norm_num [vecdMax, assignedNode, Finset.range_succ,
      Finset.filter_insert, Finset.image_insert]
  · norm_num [vecdMin, assignedNode, Finset.range_succ,
      Finset.filter_insert, Finset.image_insert]
  · norm_num [assignedNode]
  · norm_num

/-- C2 amended: with offset absent, for a non-null node inside the loop
range holding at least one observation (so `vecdMax`/`vecdMin` are the
finite max `M` and min `m` of `f` over the observations assigned to the
node), the final prediction `p` satisfies `M + p ≤ 19` and
`m + p ≥ -19` — provided the node's spread satisfies `M - m ≤ 38`
(without that proviso the lower clamp overrides the upper one and
`M + p` can exceed `19`). -/
theorem fitBestConstant_clamp (expQ logQ : ℚ → ℚ) (adY : ℕ → ℚ)
    (adW adF : ℕ → ℚ) (aiNodeAssign : ℕ → ℕ) (nTrain : ℕ)
    (vecpTermNodes : ℕ → Option ℚ) (cTermNodes cMinObsInNode : ℕ)
    (afInBag : ℕ → Bool) (adFadj : ℕ → ℚ) (iNode : ℕ) (q M m p : ℚ)
    (hNode : vecpTermNodes iNode = some q) (hLt : iNode < cTermNodes)
    (hM : vecdMax none adF aiNodeAssign nTrain iNode = (M : WithBot ℚ))
    (hm : vecdMin none adF aiNodeAssign nTrain iNode = (m : WithTop ℚ))
    (hSpread : M - m ≤ 38)
    (hp : FitBestConstant expQ logQ adY none adW adF aiNodeAssign nTrain
        vecpTermNodes cTermNodes cMinObsInNode afInBag adFadj iNode
      = some p) :
    M + p ≤ 19 ∧ -19 ≤ m + p := by
  rw [fitBestConstant_eval expQ logQ adY none adW adF aiNodeAssign
    nTrain vecpTermNodes cTermNodes cMinObsInNode afInBag adFadj iNode
    q hNode hLt, hM, hm, clampUpper_coe, clampLower_coe,
    Option.some_inj] at hp
  constructor
  · have h1 : max (min (rawPrediction logQ
        (vecdNum adY adW afInBag aiNodeAssign nTrain iNode)
        (vecdDen expQ none adW adF afInBag aiNodeAssign nTrain iNode))
        (19 - M)) (-19 - m) ≤ 19 - M := by
      refine max_le (min_le_right _ _) ?_
      linarith
    rw [← hp]
    linarith
  · have h2 : -19 - m ≤ max (min (rawPrediction logQ
        (vecdNum adY adW afInBag aiNodeAssign nTrain iNode)
        (vecdDen expQ none adW adF afInBag aiNodeAssign nTrain iNode))
        (19 - M)) (-19 - m) := le_max_right _ _
    rw [← hp]
    linarith

/-- Witness for `fitBestConstant_clamp`: one observation with `f = 0`,
`y = weight = 1`, `log ≡ 5`; the prediction is `5` and
`0 + 5 ≤ 19 ∧ -19 ≤ 0 + 5`. -/
theorem fitBestConstant_clamp_witness :
    (0 : ℚ) + 5 ≤ 19 ∧ (-19 : ℚ) ≤ 0 + 5 :=
  fitBestConstant_clamp (fun _ => 1) (fun _ => 5) (fun _ => 1)
    (fun _ => 1) (fun _ => 0) (fun _ => 0) 1 (fun _ => some 0) 1 0
    (fun _ => true) (fun _ => 0) 0 0 0 0 5 rfl (by norm_num)
    (by simp [vecdMax, assignedNode])
    (by simp [vecdMin, assignedNode])
    (by norm_num)
    (by rw [FitBestConstant]
        norm_num [rawPrediction, vecdNum, vecdDen, vecdMax, vecdMin,
          inBagNode, assignedNode, clampUpper, clampLower])

/-! ## Claim C8 — offset present: no max/min tracking, no-op clamp -/

/-- C8: when the offset array is present the per-node max/min tracking
is skipped — `vecdMax`/`vecdMin` keep their initial
`-HUGE_VAL`/`+HUGE_VAL` — and for every non-null node inside the loop
range the final prediction is exactly the unclamped branch value
(degenerate case or `log(num/den)`). -/
theorem fitBestConstant_offset_noclamp (expQ logQ : ℚ → ℚ)
    (adY o adW adF : ℕ → ℚ) (aiNodeAssign : ℕ → ℕ) (nTrain : ℕ)
    (vecpTermNodes : ℕ → Option ℚ) (cTermNodes cMinObsInNode : ℕ)
    (afInBag : ℕ → Bool) (adFadj : ℕ → ℚ) (iNode : ℕ) (q : ℚ)
    (hNode : vecpTermNodes iNode = some q) (hLt : iNode < cTermNodes) :
    vecdMax (some o) adF aiNodeAssign nTrain iNode = ⊥
    ∧ vecdMin (some o) adF aiNodeAssign nTrain iNode = ⊤
    ∧ FitBestConstant expQ logQ adY (some o) adW adF aiNodeAssign nTrain
        vecpTermNodes cTermNodes cMinObsInNode afInBag adFadj iNode
      = some (rawPrediction logQ
          (vecdNum adY adW afInBag aiNodeAssign nTrain iNode)
          (vecdDen expQ (some o) adW adF afInBag aiNodeAssign nTrain
            iNode)) := by
  refine ⟨rfl, rfl, ?_⟩
  rw [fitBestConstant_eval expQ logQ adY (some o) adW adF aiNodeAssign
    nTrain vecpTermNodes cTermNodes cMinObsInNode afInBag adFadj iNode
    q hNode hLt]
  rw [show vecdMax (some o) adF aiNodeAssign nTrain iNode = ⊥ from rfl,
    show vecdMin (some o) adF aiNodeAssign nTrain iNode = ⊤ from rfl,
    clampUpper_bot, clampLower_top]

/-- Witness for `fitBestConstant_offset_noclamp` at a concrete
one-observation input with offset `≡ 0`. -/
theorem fitBestConstant_offset_noclamp_witness :
    vecdMax (some fun _ => 0) (fun _ => 0) (fun _ => 0) 1 0 = ⊥
    ∧ vecdMin (some fun _ => 0) (fun _ => 0) (fun _ => 0) 1 0 = ⊤
    ∧ FitBestConstant (fun _ => 1) (fun _ => 5) (fun _ => 1)
        (some fun _ => 0) (fun _ => 1) (fun _ => 0) (fun _ => 0) 1
        (fun _ => some 0) 1 0 (fun _ => true) (fun _ => 0) 0
      = some (rawPrediction (fun _ => 5)
          (vecdNum (fun _ => 1) (fun _ => 1) (fun _ => true)
            (fun _ => 0) 1 0)
          (vecdDen (fun _ => 1) (some fun _ => 0) (fun _ => 1)
            (fun _ => 0) (fun _ => true) (fun _ => 0) 1 0)) :=
  fitBestConstant_offset_noclamp (fun _ => 1) (fun _ => 5) (fun _ => 1)
    (fun _ => 0) (fun _ => 1) (fun _ => 0) (fun _ => 0) 1
    (fun _ => some 0) 1 0 (fun _ => true) (fun _ => 0) 0 0 rfl
    (by norm_num)

/-! ## Claim C10 — clamp order: upper first, then lower -/

/-- C10: for a non-null node inside the loop range whose clamp bounds
are finite (`vecdMax = M`, `vecdMin = m`), the final prediction is
`max (min raw (19 - M)) (-19 - m)` where `raw` is the unclamped branch
value — the upper clamp is applied first, so the lower bound
`-19 - m` holds unconditionally, taking precedence when the two bounds
conflict. -/
theorem fitBestConstant_clamp_order (expQ logQ : ℚ → ℚ) (adY : ℕ → ℚ)
    (adOffset : Option (ℕ → ℚ)) (adW adF : ℕ → ℚ)
    (aiNodeAssign : ℕ → ℕ) (nTrain : ℕ) (vecpTermNodes : ℕ → Option ℚ)
    (cTermNodes cMinObsInNode : ℕ) (afInBag : ℕ → Bool) (adFadj : ℕ → ℚ)
    (iNode : ℕ) (q M m : ℚ)
    (hNode : vecpTermNodes iNode = some q) (hLt : iNode < cTermNodes)
    (hM : vecdMax adOffset adF aiNodeAssign nTrain iNode
      = (M : WithBot ℚ))
    (hm : vecdMin adOffset adF aiNodeAssign nTrain iNode
      = (m : WithTop ℚ)) :
    FitBestConstant expQ logQ adY adOffset adW adF aiNodeAssign nTrain
        vecpTermNodes cTermNodes cMinObsInNode afInBag adFadj iNode
      = some (max (min (rawPrediction logQ
            (vecdNum adY adW afInBag aiNodeAssign nTrain iNode)
            (vecdDen expQ adOffset adW adF afInBag aiNodeAssign nTrain
              iNode)) (19 - M)) (-19 - m))
    ∧ -19 - m ≤ max (min (rawPrediction logQ
          (vecdNum adY adW afInBag aiNodeAssign nTrain iNode)
          (vecdDen expQ adOffset adW adF afInBag aiNodeAssign nTrain
            iNode)) (19 - M)) (-19 - m) := by
  refine ⟨?_, le_max_right _ _⟩
  rw [fitBestConstant_eval expQ logQ adY adOffset adW adF aiNodeAssign
    nTrain vecpTermNodes cTermNodes cMinObsInNode afInBag adFadj iNode
    q hNode hLt, hM, hm, clampUpper_coe, clampLower_coe]

/-- Witness for `fitBestConstant_clamp_order` at a concrete
one-observation input with `f = 0`. -/
theorem fitBestConstant_clamp_order_witness :
    FitBestConstant (fun _ => 1) (fun _ => 5) (fun _ => 1) none
        (fun _ => 1) (fun _ => 0) (fun _ => 0) 1 (fun _ => some 0) 1 0
        (fun _ => true) (fun _ => 0) 0
      = some (max (min (rawPrediction (fun _ => 5)
            (vecdNum (fun _ => 1) (fun _ => 1) (fun _ => true)
              (fun _ => 0) 1 0)
            (vecdDen (fun _ => 1) none (fun _ => 1) (fun _ => 0)
              (fun _ => true) (fun _ => 0) 1 0)) (19 - 0)) (-19 - 0))
    ∧ -19 - 0 ≤ max (min (rawPrediction (fun _ => 5)
          (vecdNum (fun _ => 1) (fun _ => 1) (fun _ => true)
            (fun _ => 0) 1 0)
          (vecdDen (fun _ => 1) none (fun _ => 1) (fun _ => 0)
            (fun _ => true) (fun _ => 0) 1 0)) (19 - 0)) (-19 - 0) :=
  fitBestConstant_clamp_order (fun _ => 1) (fun _ => 5) (fun _ => 1)
    none (fun _ => 1) (fun _ => 0) (fun _ => 0) 1 (fun _ => some 0) 1 0
    (fun _ => true) (fun _ => 0) 0 0 0 0 rfl (by norm_num)
    (by simp [vecdMax, assignedNode])
    (by simp [vecdMin, assignedNode])

end CPoisson
